import Mathlib

/-!
Verification of the spaceKLIP `Coron1Pipeline_spaceKLIP` stage-1 core
(`spaceKLIP/coron1pipeline.py`) against its natural-language specification.

The Python source is shallowly embedded: 4-D ramp cubes become structures of
total functions over `Nat` indices, DQ bitmasks become `Nat` values combined
with `|||`/`&&&`, the external JWST calibration steps (saturation, refpix,
ramp_fit) become function parameters, and in-place numpy mutations become
functional structure updates.  The one helper routine of the repository that
is not part of the provided source file but whose content a claim depends on
(`expand_mask` from `spaceKLIP.imagetools`) is modelled from the
specification and marked as such in its doc comment; routines whose
internals no claim depends on (`cube_fit`, `cube_outlier_detection`,
`CleanSubarray`, `robust.mean`) appear as abstract function parameters.
-/

namespace SpaceKLIP

/-! ## DQ bit flags (values of `jwst.datamodels.dqflags.pixel`) -/

/-- `dqflags.pixel['DO_NOT_USE'] = 1`. -/
def DO_NOT_USE : Nat := 1

/-- `dqflags.pixel['SATURATED'] = 2`. -/
def SATURATED : Nat := 2

/-- `dqflags.pixel['JUMP_DET'] = 4`. -/
def JUMP_DET : Nat := 4

/-- `dqflags.pixel['RC'] = 16384`. -/
def RC : Nat := 16384

/-- `dqflags.pixel['REFERENCE_PIXEL'] = 2147483648`. -/
def REFERENCE_PIXEL : Nat := 2147483648

/-- Embedding of the numpy idiom `(value & flag) > 0` on one bitmask entry. -/
def hasFlag (v f : Nat) : Bool := decide (0 < v &&& f)

/-! ## Data model: the JWST `RampModel` fields read by the source -/

/-- A JWST ramp datamodel as used by `coron1pipeline.py`: `data[nint, ngroup,
ny, nx]`, `groupdq[nint, ngroup, ny, nx]`, `pixeldq[ny, nx]`, an optional
zero-frame array `[nint, ny, nx]` (present iff `meta.exposure.zero_frame`),
and the metadata fields the source reads (`meta.subarray.name` reduced to a
full-frame flag, plus `meta.exposure.nints`, `ngroups`, `noutputs` and
`group_time`).  Arrays are total functions over `Nat` indices; only indices
below the stated dimensions are meaningful. -/
structure RampCube where
  nints : Nat
  ngroups : Nat
  ny : Nat
  nx : Nat
  data : Nat → Nat → Nat → Nat → Rat
  groupdq : Nat → Nat → Nat → Nat → Nat
  pixeldq : Nat → Nat → Nat
  zeroframe : Option (Nat → Nat → Nat → Rat)
  isFullFrame : Bool
  noutputs : Nat
  groupTime : Rat

/-! ## DQ algebra: region growth (`expand_mask`)

`expand_mask` lives in `spaceKLIP/imagetools.py`, which is not part of the
provided source file. -/

/-- `|a - b|` on naturals, written so `omega` can reason about it directly. -/
def absDiff (a b : Nat) : Nat := (a - b) + (b - a)

/-- A query point is inside the 2-D array bounds. -/
def inBounds (ny nx y x : Nat) : Bool := decide (y < ny) && decide (x < nx)

/-- One dilation step of a boolean mask: a pixel is set afterwards iff it is
in bounds and it or one of its 4-connected neighbours (also the 8-connected
corner neighbours when `diagonal`) was set before. -/
def dilateStep (diagonal : Bool) (ny nx : Nat) (m : Nat → Nat → Bool) :
    Nat → Nat → Bool :=
  fun y x =>
    inBounds ny nx y x &&
      (m y x
        || (decide (0 < y) && m (y - 1) x)
        || (decide (y + 1 < ny) && m (y + 1) x)
        || (decide (0 < x) && m y (x - 1))
        || (decide (x + 1 < nx) && m y (x + 1))
        || (diagonal &&
              ((decide (0 < y) && decide (0 < x) && m (y - 1) (x - 1))
                || (decide (0 < y) && decide (x + 1 < nx) && m (y - 1) (x + 1))
                || (decide (y + 1 < ny) && decide (0 < x) && m (y + 1) (x - 1))
                || (decide (y + 1 < ny) && decide (x + 1 < nx) && m (y + 1) (x + 1)))))

/-- Modelled from the spec: `expand_mask(mask, npix, grow_diagonal)` of
`spaceKLIP.imagetools` is absent from the provided source; per the spec's DQ
Algebra contract it returns the mask dilated by `npix` pixels, growing
through the 4-connected (Manhattan) neighbourhood when `grow_diagonal` is
false and through the 8-connected neighbourhood when it is true.  Embedded as
`npix` iterations of the one-pixel dilation step over the array bounds. -/
def expand_mask (m : Nat → Nat → Bool) (npix : Nat) (diagonal : Bool)
    (ny nx : Nat) : Nat → Nat → Bool :=
  match npix with
  | 0 => m
  | Nat.succ k => dilateStep diagonal ny nx (expand_mask m k diagonal ny nx)

/-! ## Saturation corrector (`do_saturation`, lines 276-339) -/

/-- Lines 304-306: the boolean RC mask `(input.pixeldq & RC) > 0`. -/
def maskRc (cube : RampCube) (y x : Nat) : Bool := hasFlag (cube.pixeldq y x) RC

/-- Line 306: `input.groupdq = input.groupdq | (mask_rc * SATURATED)` — OR the
`SATURATED` flag into every group sample of every pixel whose pixel DQ has
the `RC` bit set. -/
def flagRcSat (cube : RampCube) : RampCube :=
  { cube with
    groupdq := fun i g y x =>
      cube.groupdq i g y x ||| (if maskRc cube y x then SATURATED else 0) }

/-- Lines 318-327: grow the `SATURATED` bits of the group DQ (the mask is
read from `input.groupdq`, the cube the external step received) and OR the
grown mask into the step result's group DQ. -/
def growSatGroupdq (npix_grow : Nat) (input res : RampCube) : RampCube :=
  { res with
    groupdq := fun i g y x =>
      res.groupdq i g y x |||
        (if expand_mask (fun yy xx => hasFlag (input.groupdq i g yy xx) SATURATED)
            npix_grow false input.ny input.nx y x
         then SATURATED else 0) }

/-- Lines 329-337: when a zero frame is present, grow the zero-frame
saturation mask (zero-frame value exactly zero, ORed with the RC mask of
`input.pixeldq` when `flag_rcsat`) and zero the grown zero-frame pixels. -/
def growSatZeroframe (flag_rcsat : Bool) (npix_grow : Nat)
    (input res1 : RampCube) : RampCube :=
  match res1.zeroframe with
  | none => res1
  | some zf =>
      { res1 with
        zeroframe := some (fun i y x =>
          if expand_mask (fun py px =>
              if flag_rcsat then (decide (zf i py px = 0) || maskRc input py px)
              else decide (zf i py px = 0)) npix_grow false res1.ny res1.nx y x
          then 0 else zf i y x) }

/-- Lines 308-339 of `do_saturation`, after the optional RC flagging: run the
external saturation step (a parameter `satStep`, called with the
`n_pix_grow_sat` value to use), and in the non-diagonal branch rerun it with
zero growth, regrow the `SATURATED` bits and zero the grown zero-frame
pixels. -/
def do_saturation_main (satStep : Nat → RampCube → RampCube)
    (flag_rcsat grow_diagonal : Bool) (npix_grow : Nat)
    (input : RampCube) : RampCube :=
  if grow_diagonal || npix_grow == 0 then
    satStep npix_grow input
  else
    growSatZeroframe flag_rcsat npix_grow input
      (growSatGroupdq npix_grow input (satStep 0 input))

/-- `do_saturation` (lines 276-339): optionally pre-flag RC pixels as
saturated, then run the saturation step, with custom non-diagonal growth of
the saturation flags when `grow_diagonal` is false and `n_pix_grow_sat` is
nonzero. -/
def do_saturation (satStep : Nat → RampCube → RampCube)
    (flag_rcsat grow_diagonal : Bool) (npix_grow : Nat)
    (cube : RampCube) : RampCube :=
  do_saturation_main satStep flag_rcsat grow_diagonal npix_grow
    (if flag_rcsat then flagRcSat cube else cube)

/-! ## Pseudo reference pixels (`do_refpix` / `do_pseudo_refpix`, lines
391-512) -/

/-- Line 493: the side-reference-pixel option handed to the external refpix
step; forced off when no side columns are flagged. -/
def pseudoUseSide (nleft nright : Nat) (useSideOrig : Bool) : Bool :=
  if nleft + nright == 0 then false else useSideOrig

/-- Lines 472-488: flood the requested border rows and columns of the pixel
DQ array with the `REFERENCE_PIXEL` flag.  Slice `[ib1:ib2, :]` is rows
`nrow_off ≤ y < nrow_off + nlower`; slice `[it1:it2, :]` with
`it1 = -(nupper+nrow_off)` and `it2 = None`-or-`-nrow_off` is rows
`ny - (nupper+nrow_off) ≤ y < ny - nrow_off` (truncated subtraction matches
Python's clamping of negative slice indices); columns are analogous. -/
def pseudoFlagged (nlower nupper nleft nright nrow_off ncol_off : Nat)
    (cube : RampCube) : RampCube :=
  let dq1 := if 0 < nlower then
      (fun y x => if nrow_off ≤ y ∧ y < nrow_off + nlower
        then cube.pixeldq y x ||| REFERENCE_PIXEL else cube.pixeldq y x)
    else cube.pixeldq
  let dq2 := if 0 < nupper then
      (fun y x => if cube.ny - (nupper + nrow_off) ≤ y ∧ y < cube.ny - nrow_off
        then dq1 y x ||| REFERENCE_PIXEL else dq1 y x)
    else dq1
  let dq3 := if 0 < nleft then
      (fun y x => if ncol_off ≤ x ∧ x < ncol_off + nleft
        then dq2 y x ||| REFERENCE_PIXEL else dq2 y x)
    else dq2
  let dq4 := if 0 < nright then
      (fun y x => if cube.nx - (nright + ncol_off) ≤ x ∧ x < cube.nx - ncol_off
        then dq3 y x ||| REFERENCE_PIXEL else dq3 y x)
    else dq3
  { cube with pixeldq := dq4 }

/-- The union of the four flooded border regions, as a decidable test.  The
`0 < n` guards mirror the `if n > 0` guards of the source (they are
redundant for the row/column ranges, which are empty when the width is
zero). -/
def floodedRegion (ny nx nlower nupper nleft nright nrow_off ncol_off
    y x : Nat) : Bool :=
  (decide (0 < nlower) && decide (nrow_off ≤ y) && decide (y < nrow_off + nlower))
  || (decide (0 < nupper) && decide (ny - (nupper + nrow_off) ≤ y)
        && decide (y < ny - nrow_off))
  || (decide (0 < nleft) && decide (ncol_off ≤ x) && decide (x < ncol_off + nleft))
  || (decide (0 < nright) && decide (nx - (nright + ncol_off) ≤ x)
        && decide (x < nx - ncol_off))

/-- Lines 502-510: the restore block of `do_pseudo_refpix` — write the saved
pixel-DQ values back into the flooded regions of the step result `res`.  The
restore slices are interpreted against the result's dimensions, as Python's
negative slice indices are. -/
def pseudoRestore (pixeldq_orig : Nat → Nat → Nat)
    (nlower nupper nleft nright nrow_off ncol_off : Nat)
    (res : RampCube) : RampCube :=
  let rdq1 := if 0 < nlower then
      (fun y x => if nrow_off ≤ y ∧ y < nrow_off + nlower
        then pixeldq_orig y x else res.pixeldq y x)
    else res.pixeldq
  let rdq2 := if 0 < nupper then
      (fun y x => if res.ny - (nupper + nrow_off) ≤ y ∧ y < res.ny - nrow_off
        then pixeldq_orig y x else rdq1 y x)
    else rdq1
  let rdq3 := if 0 < nleft then
      (fun y x => if ncol_off ≤ x ∧ x < ncol_off + nleft
        then pixeldq_orig y x else rdq2 y x)
    else rdq2
  let rdq4 := if 0 < nright then
      (fun y x => if res.nx - (nright + ncol_off) ≤ x ∧ x < res.nx - ncol_off
        then pixeldq_orig y x else rdq3 y x)
    else rdq3
  { res with pixeldq := rdq4 }

/-- `do_pseudo_refpix` (lines 435-512): save the pixel DQ, flood the border
regions with `REFERENCE_PIXEL`, run the external refpix step (a parameter
taking the `use_side_ref_pixels` option), then write the saved values back
into the same regions of the result. -/
def do_pseudo_refpix (refpixStep : Bool → RampCube → RampCube)
    (useSideOrig : Bool)
    (nlower nupper nleft nright nrow_off ncol_off : Nat)
    (cube : RampCube) : RampCube :=
  let flagged := pseudoFlagged nlower nupper nleft nright nrow_off ncol_off cube
  let res := refpixStep (pseudoUseSide nleft nright useSideOrig) flagged
  pseudoRestore cube.pixeldq nlower nupper nleft nright nrow_off ncol_off res

/-- The branch decision of `do_refpix` (lines 418-433). -/
inductive RefpixPath where
  | normal : RefpixPath
  | pseudo : RefpixPath
deriving DecidableEq

/-- Lines 418-430: run the external correction unmodified iff the cube is
full frame or `nlower + nupper` (`nleft`/`nright` are commented out of the
sum) is zero. -/
def do_refpix_path (isFullFrame : Bool) (nlower nupper : Nat) : RefpixPath :=
  if isFullFrame || (nlower + nupper == 0) then RefpixPath.normal
  else RefpixPath.pseudo

/-- `do_refpix` (lines 391-433): dispatch between the unmodified external
refpix step and the pseudo-reference-pixel path. -/
def do_refpix (refpixStep : Bool → RampCube → RampCube) (useSideOrig : Bool)
    (nlower nupper nleft nright nrow_off ncol_off : Nat)
    (cube : RampCube) : RampCube :=
  match do_refpix_path cube.isFullFrame nlower nupper with
  | RefpixPath.normal => refpixStep useSideOrig cube
  | RefpixPath.pseudo =>
      do_pseudo_refpix refpixStep useSideOrig
        nlower nupper nleft nright nrow_off ncol_off cube

/-! ## Cross-integration outliers (`apply_rateint_outliers`, lines 341-389) -/

/-- `apply_rateint_outliers` (lines 341-389), parameterised over the
per-integration outlier mask `indbad` returned by the external
`cube_outlier_detection`: reshape `indbad` to the group axis (repeat across
all groups), then OR it into the `DO_NOT_USE` and `JUMP_DET` masks and fold
those masks back into the group DQ. -/
def apply_rateint_outliers (indbad : Nat → Nat → Nat → Bool)
    (ramp : RampCube) : RampCube :=
  let bpmask := fun i (_g : Nat) y x => indbad i y x
  let mask_dnu := fun i g y x =>
    hasFlag (ramp.groupdq i g y x) DO_NOT_USE || bpmask i g y x
  let mask_jd := fun i g y x =>
    hasFlag (ramp.groupdq i g y x) JUMP_DET || bpmask i g y x
  { ramp with
    groupdq := fun i g y x =>
      (ramp.groupdq i g y x ||| (if mask_dnu i g y x then DO_NOT_USE else 0))
        ||| (if mask_jd i g y x then JUMP_DET else 0) }

/-! ## Ramp-fit tail of `process` (lines 158-170) -/

/-- The ramp-fit tail of `process` (lines 158-170), abstracted over the
datamodel type `M`: run the ramp-fit step (modelled as returning the
`(rate, rateints)` pair, each possibly null; when the step is skipped it
passes the ramp through as the single product), and when `rate_int_outliers`
is set and `rateints` is not null, apply the outlier flagging (which may
yield a null ramp) and re-run the ramp fit.  Returns the `(input,
ints_model)` pair that the rest of `process` consumes. -/
def processRampFitTail {M : Type} (rampFitSkip rateIntOutliers : Bool)
    (rampFitStep : M → Option M × Option M)
    (applyOutliers : M → M → Option M)
    (input0 : M) : Option M × Option M :=
  let p := if rampFitSkip then ((some input0 : Option M), (none : Option M))
           else rampFitStep input0
  let rate := p.1
  let rateints := p.2
  match rateIntOutliers, rateints with
  | true, some ri =>
      match applyOutliers ri input0 with
      | none => (rate, rateints)
      | some input1 =>
          if rampFitSkip then (some input1, none) else rampFitStep input1
  | _, _ => (rate, rateints)

/-! ## Ramp slope fitter (`_fit_slopes`, lines 514-577) -/

/-- Lines 566-567: `bpmask_arr = np.cumsum(groupdq, axis=0) > 0` for one
integration — group `g` of a pixel is bad iff the running sum of its group
DQ values over groups `0..g` is positive (numpy promotes the `uint8` DQ to a
platform integer before summing, so no overflow). -/
def cumulativeBadMask (groupdq : Nat → Nat → Nat → Nat) (g y x : Nat) : Bool :=
  decide (0 < (Finset.range (g + 1)).sum (fun gp => groupdq gp y x))

/-- The type of the external `cube_fit` helper (from `spaceKLIP.imagetools`,
not in the provided source): time array, one integration's data cube, bad
sample mask, saturation thresholds and saturation fraction in; `(bias,
slope)` maps out. -/
def CubeFitFn : Type :=
  (Nat → Rat) → (Nat → Nat → Nat → Rat) → (Nat → Nat → Nat → Bool) →
    (Nat → Nat → Rat) → Rat → ((Nat → Nat → Rat) × (Nat → Nat → Rat))

/-- `_fit_slopes` (lines 514-577), parameterised over `cube_fit` and the
externally sourced saturation threshold map: for each integration, fit with
the time array `tarr g = (g+1) * group_time` and the cumulative bad-sample
mask of that integration's group DQ.  Returns the `(bias, slope)` arrays of
shape `[nints, ny, nx]`. -/
def fit_slopes (cubeFit : CubeFitFn) (satThresh : Nat → Nat → Rat)
    (satFrac : Rat) (cube : RampCube) :
    (Nat → Nat → Nat → Rat) × (Nat → Nat → Nat → Rat) :=
  let tarr := fun g => ((g + 1 : Nat) : Rat) * cube.groupTime
  (fun i => (cubeFit tarr (cube.data i)
      (fun g y x => cumulativeBadMask (cube.groupdq i) g y x)
      satThresh satFrac).1,
   fun i => (cubeFit tarr (cube.data i)
      (fun g y x => cumulativeBadMask (cube.groupdq i) g y x)
      satThresh satFrac).2)

/-! ## kTC removal (`subtract_ktc`, lines 579-590) -/

/-- `subtract_ktc` (lines 579-590): fit slopes, then subtract integration
`i`'s bias map from the data of every group of integration `i`, for each
`i < nints`.  No other field is written. -/
def subtract_ktc (cubeFit : CubeFitFn) (satThresh : Nat → Nat → Rat)
    (satFrac : Rat) (cube : RampCube) : RampCube :=
  let bias := (fit_slopes cubeFit satThresh satFrac cube).1
  { cube with
    data := fun i g y x =>
      if i < cube.nints then cube.data i g y x - bias i y x
      else cube.data i g y x }

/-! ## 1/f noise removal (`subtract_fnoise`, lines 592-674) -/

/-- The channel column bands of `subtract_fnoise`: for each readout channel
`ch < noutputs`, the band `x1 = ch * chsize` to `x2 = x1 + chsize` with
`chsize = ny // noutputs` (lines 629-630 and 654-656). -/
def fnoiseChannels (ny noutputs : Nat) : List (Nat × Nat) :=
  (List.range noutputs).map
    (fun ch => (ch * (ny / noutputs), ch * (ny / noutputs) + ny / noutputs))

/-- `subtract_fnoise` (lines 592-674), parameterised over `cube_fit`, the
saturation threshold map, the external robust mean over the integration axis
(`webbpsf_ext.robust.mean`) and the per-channel noise model fitted by the
external `CleanSubarray` (`fitModel` takes the signal-subtracted channel
image and the good-pixel mask and returns the fitted noise model).  The two
`assert` statements become `Except.error` with the assertion messages.  Each
channel band of each group of each integration has its fitted model
subtracted; the model of a band depends only on that band's original data,
the mean signal ramp and the cumulative group-DQ mask, so the in-place loop
is rendered as one functional update. -/
def subtract_fnoise (cubeFit : CubeFitFn) (satThresh : Nat → Nat → Rat)
    (robustMean : (Nat → Nat → Nat → Rat) → (Nat → Nat → Rat))
    (fitModel : (Nat → Nat → Rat) → (Nat → Nat → Bool) → (Nat → Nat → Rat))
    (satFrac : Rat) (cube : RampCube) : Except String RampCube :=
  if cube.isFullFrame && !(cube.noutputs == 4) then
    Except.error "Full frame data must have 4 outputs"
  else if !cube.isFullFrame && !(cube.noutputs == 1) then
    Except.error "Subarray data must have 1 output"
  else
    let chsize := cube.ny / cube.noutputs
    let slope_arr := (fit_slopes cubeFit satThresh satFrac cube).2
    let slope_mean := robustMean slope_arr
    let tarr := fun g => ((g + 1 : Nat) : Rat) * cube.groupTime
    let signal_mean_ramp := fun (j y x : Nat) => slope_mean y x * tarr j
    let bp := fun i g y x => cumulativeBadMask (cube.groupdq i) g y x
    let chModel := fun i j ch =>
      fitModel
        (fun y xr => cube.data i j y (ch * chsize + xr)
          - signal_mean_ramp j y (ch * chsize + xr))
        (fun y xr => !bp i j y (ch * chsize + xr))
    Except.ok { cube with
      data := fun i j y x =>
        if i < cube.nints ∧ j < cube.ngroups ∧ x < cube.noutputs * chsize then
          cube.data i j y x - chModel i j (x / chsize) y (x % chsize)
        else cube.data i j y x }

/-! ## The non-MIRI noise-removal steps of `process` (lines 148-151) -/

/-- Lines 148-151 of `process` (the non-MIRI branch, after jump detection):
`subtract_ktc` runs when `remove_ktc or remove_fnoise`, and `subtract_fnoise`
runs when `remove_fnoise` (with the default `sat_frac = 0.5` of both
methods). -/
def processNirNoise (remove_ktc remove_fnoise : Bool)
    (cubeFit : CubeFitFn) (satThresh : Nat → Nat → Rat)
    (robustMean : (Nat → Nat → Nat → Rat) → (Nat → Nat → Rat))
    (fitModel : (Nat → Nat → Rat) → (Nat → Nat → Bool) → (Nat → Nat → Rat))
    (cube : RampCube) : Except String RampCube :=
  let cube1 := if remove_ktc || remove_fnoise then
      subtract_ktc cubeFit satThresh (1/2 : Rat) cube
    else cube
  if remove_fnoise then
    subtract_fnoise cubeFit satThresh robustMean fitModel (1/2 : Rat) cube1
  else Except.ok cube1

/-! ## Concrete instances used by witnesses and counterexamples -/

/-- A 1-integration, 2-group ramp whose sample carries the `SATURATED` flag,
used to instantiate `C4_rateint_outliers`. -/
def c4Ramp : RampCube where
  nints := 1
  ngroups := 2
  ny := 1
  nx := 1
  data := fun _ _ _ _ => 0
  groupdq := fun _ _ _ _ => SATURATED
  pixeldq := fun _ _ => 0
  zeroframe := none
  isFullFrame := false
  noutputs := 1
  groupTime := 1

/-- A 1x2 cube whose pixel `(0,0)` is an RC pixel and `(0,1)` is not, used to
instantiate `C7_rc_saturation`. -/
def c7Cube : RampCube where
  nints := 1
  ngroups := 1
  ny := 1
  nx := 2
  data := fun _ _ _ _ => 0
  groupdq := fun _ _ _ _ => 0
  pixeldq := fun _ x => if x = 0 then RC else 0
  zeroframe := none
  isFullFrame := false
  noutputs := 1
  groupTime := 1

/-- A full-frame cube for the C6 witness. -/
def c6Cube : RampCube where
  nints := 1
  ngroups := 1
  ny := 4
  nx := 4
  data := fun _ _ _ _ => 0
  groupdq := fun _ _ _ _ => 0
  pixeldq := fun _ _ => 0
  zeroframe := none
  isFullFrame := true
  noutputs := 4
  groupTime := 1

/-- A subarray cube for the C6 witness. -/
def c6bCube : RampCube where
  nints := 1
  ngroups := 1
  ny := 4
  nx := 4
  data := fun _ _ _ _ => 0
  groupdq := fun _ _ _ _ => 0
  pixeldq := fun _ _ => 0
  zeroframe := none
  isFullFrame := false
  noutputs := 1
  groupTime := 1

/-- A trivial stand-in for the external `cube_fit`, used by witnesses. -/
def c8Fit : CubeFitFn := fun _ _ _ _ _ => (fun _ _ => 0, fun _ _ => 0)

/-- A cube violating the full-frame channel-count convention. -/
def c8BadCube : RampCube where
  nints := 1
  ngroups := 1
  ny := 4
  nx := 4
  data := fun _ _ _ _ => 0
  groupdq := fun _ _ _ _ => 0
  pixeldq := fun _ _ => 0
  zeroframe := none
  isFullFrame := true
  noutputs := 1
  groupTime := 1

/-- A constant-bias `cube_fit` stand-in for the C9 witness. -/
def c9Fit : CubeFitFn := fun _ _ _ _ _ => (fun _ _ => (3 : Rat), fun _ _ => 0)

/-- A constant-data cube for the C9 witness. -/
def c9Cube : RampCube where
  nints := 1
  ngroups := 2
  ny := 1
  nx := 1
  data := fun _ _ _ _ => 5
  groupdq := fun _ _ _ _ => 0
  pixeldq := fun _ _ => 0
  zeroframe := none
  isFullFrame := false
  noutputs := 1
  groupTime := 1

/-- A 2x1 subarray cube with a clean pixel DQ, used by the C1
counterexample: its bottom row is the flooded region when `nlower = 1`. -/
def c1Cube : RampCube where
  nints := 1
  ngroups := 1
  ny := 2
  nx := 1
  data := fun _ _ _ _ => 0
  groupdq := fun _ _ _ _ => 0
  pixeldq := fun _ _ => 0
  zeroframe := none
  isFullFrame := false
  noutputs := 1
  groupTime := 1

/-- The external reference-pixel correction of the C1 counterexample: it ORs
`DO_NOT_USE` into every pixel's DQ value (on top of whatever correction it
does to the data). -/
def c1Step : Bool → RampCube → RampCube := fun _ c =>
  { c with pixeldq := fun y x => c.pixeldq y x ||| DO_NOT_USE }

/-- The ramp-fit step of the C2 counterexample over `M = Nat`: on the
original ramp (`0`) it returns a rate and a rateints product; on the
outlier-flagged ramp (`1`) it returns the null product. -/
def c2RampFit : Nat → Option Nat × Option Nat := fun m =>
  if m == 0 then (some 10, some 20) else (none, none)

/-- A 2x3 cube whose only saturated sample sits at pixel `(0, 0)`, used by
the C3 witness. -/
def c3Cube : RampCube where
  nints := 1
  ngroups := 1
  ny := 2
  nx := 3
  data := fun _ _ _ _ => 0
  groupdq := fun _ _ y x => if y = 0 ∧ x = 0 then SATURATED else 0
  pixeldq := fun _ _ => 0
  zeroframe := none
  isFullFrame := false
  noutputs := 1
  groupTime := 1

/-! ## Generic bitmask lemmas -/

theorem hasFlag_two_pow (a k : Nat) : hasFlag a (2 ^ k) = a.testBit k := by
  unfold hasFlag
  rw [Nat.and_two_pow]
  cases h : a.testBit k
  · simp
  · simp [Nat.two_pow_pos k]

theorem hasFlag_DO_NOT_USE (a : Nat) : hasFlag a DO_NOT_USE = a.testBit 0 :=
  hasFlag_two_pow a 0

theorem hasFlag_SATURATED (a : Nat) : hasFlag a SATURATED = a.testBit 1 :=
  hasFlag_two_pow a 1

theorem hasFlag_JUMP_DET (a : Nat) : hasFlag a JUMP_DET = a.testBit 2 :=
  hasFlag_two_pow a 2

theorem hasFlag_RC (a : Nat) : hasFlag a RC = a.testBit 14 :=
  hasFlag_two_pow a 14

theorem testBit_DO_NOT_USE (i : Nat) : DO_NOT_USE.testBit i = decide (0 = i) := by
  show (2 ^ 0).testBit i = decide (0 = i)
  exact Nat.testBit_two_pow

theorem testBit_SATURATED (i : Nat) : SATURATED.testBit i = decide (1 = i) := by
  show (2 ^ 1).testBit i = decide (1 = i)
  exact Nat.testBit_two_pow

theorem testBit_JUMP_DET (i : Nat) : JUMP_DET.testBit i = decide (2 = i) := by
  show (2 ^ 2).testBit i = decide (2 = i)
  exact Nat.testBit_two_pow

/-- The absorption identity behind `apply_rateint_outliers`: starting from a
group-DQ value `a` and an outlier bit `b`, re-ORing the (possibly already
set) `DO_NOT_USE` and `JUMP_DET` masks augmented by `b` is the same as ORing
`b * (DO_NOT_USE | JUMP_DET)` directly into `a`. -/
theorem or_outlier_flags (a : Nat) (b : Bool) :
    (a ||| (if (hasFlag a DO_NOT_USE || b) then DO_NOT_USE else 0)) |||
        (if (hasFlag a JUMP_DET || b) then JUMP_DET else 0)
      = a ||| (if b then DO_NOT_USE ||| JUMP_DET else 0) := by
  apply Nat.eq_of_testBit_eq
  intro i
  rw [hasFlag_DO_NOT_USE, hasFlag_JUMP_DET]
  cases b
  · cases h0 : a.testBit 0 <;> cases h2 : a.testBit 2 <;>
      simp only [Bool.or_false, h0, h2, if_true, if_false, Nat.testBit_or,
        Nat.zero_testBit, testBit_DO_NOT_USE, testBit_JUMP_DET] <;>
      rcases Nat.decEq 0 i with hi0 | hi0 <;>
      rcases Nat.decEq 2 i with hi2 | hi2 <;>
      simp_all
  · simp only [Bool.or_true, if_true, Nat.testBit_or, testBit_DO_NOT_USE,
      testBit_JUMP_DET]
    cases a.testBit i <;> simp

/-! ## Claim C4: cross-integration outlier write-back -/

/-- C4: for every ramp cube and per-integration outlier mask,
`apply_rateint_outliers` broadcasts the `(integration, pixel)` outlier mask
across all groups of the flagged integration and ORs it into both the
`DO_NOT_USE` and `JUMP_DET` bits of the group DQ; every previously set
group-DQ bit remains set. -/
theorem C4_rateint_outliers (indbad : Nat → Nat → Nat → Bool)
    (ramp : RampCube) (i g y x : Nat) :
    (apply_rateint_outliers indbad ramp).groupdq i g y x
      = ramp.groupdq i g y x |||
          (if indbad i y x then DO_NOT_USE ||| JUMP_DET else 0)
    ∧ (∀ k, (ramp.groupdq i g y x).testBit k = true →
        ((apply_rateint_outliers indbad ramp).groupdq i g y x).testBit k = true) := by
  constructor
  · show (ramp.groupdq i g y x ||| _) ||| _ = _
    exact or_outlier_flags (ramp.groupdq i g y x) (indbad i y x)
  · intro k hk
    show (((ramp.groupdq i g y x) ||| _) ||| _).testBit k = true
    simp [Nat.testBit_or, hk]

/-- Witness for C4 at a concrete ramp and outlier mask: a previously set
`SATURATED` bit survives the write-back, and the outlier flags land in both
groups. -/
theorem C4_witness :
    ((apply_rateint_outliers (fun _ _ _ => true) c4Ramp).groupdq 0 0 0 0).testBit 1 = true ∧
    (apply_rateint_outliers (fun _ _ _ => true) c4Ramp).groupdq 0 1 0 0
      = SATURATED ||| (DO_NOT_USE ||| JUMP_DET) := by
  refine ⟨(C4_rateint_outliers (fun _ _ _ => true) c4Ramp 0 0 0 0).2 1 (by decide), ?_⟩
  rw [(C4_rateint_outliers (fun _ _ _ => true) c4Ramp 0 1 0 0).1]
  decide

/-! ## Claim C5: cumulative bad-sample mask -/

/-- C5: the cumulative bad-sample mask `np.cumsum(groupdq, axis=0) > 0` that
`_fit_slopes` and `subtract_fnoise` build for one integration is monotone
non-decreasing along the group axis for every pixel, and a group is marked
bad exactly when some group at or before it has a nonzero group-DQ value. -/
theorem C5_cumulative_mask (groupdq : Nat → Nat → Nat → Nat) (y x : Nat) :
    (∀ g gp, g ≤ gp → cumulativeBadMask groupdq g y x = true →
        cumulativeBadMask groupdq gp y x = true)
    ∧ (∀ g, cumulativeBadMask groupdq g y x = true ↔
        ∃ gp, gp ≤ g ∧ groupdq gp y x ≠ 0) := by
  constructor
  · intro g gp hle hg
    simp only [cumulativeBadMask, decide_eq_true_eq] at hg ⊢
    have hsub : (Finset.range (g + 1)).sum (fun t => groupdq t y x)
        ≤ (Finset.range (gp + 1)).sum (fun t => groupdq t y x) :=
      Finset.sum_le_sum_of_subset (Finset.range_subset.mpr (by omega))
    omega
  · intro g
    simp only [cumulativeBadMask, decide_eq_true_eq]
    constructor
    · intro h
      by_contra hc
      push_neg at hc
      have hz : (Finset.range (g + 1)).sum (fun t => groupdq t y x) = 0 :=
        Finset.sum_eq_zero
          (fun t ht => hc t (Nat.lt_succ_iff.mp (Finset.mem_range.mp ht)))
      omega
    · rintro ⟨gp, hle, hne⟩
      have hmem : gp ∈ Finset.range (g + 1) :=
        Finset.mem_range.mpr (Nat.lt_succ_of_le hle)
      have hs : groupdq gp y x
          ≤ (Finset.range (g + 1)).sum (fun t => groupdq t y x) := by
        simpa using Finset.single_le_sum
          (f := fun t => groupdq t y x) (fun t _ => Nat.zero_le _) hmem
      omega

/-- Witness for C5 at a concrete group-DQ column: the flag raised at group 1
persists through group 2, and group 2 is bad exactly because group 1 is
nonzero. -/
theorem C5_witness :
    cumulativeBadMask (fun g _ _ => if g = 1 then JUMP_DET else 0) 2 0 0 = true ∧
    (∃ gp, gp ≤ 2 ∧ (if gp = 1 then JUMP_DET else 0) ≠ 0) := by
  have h := C5_cumulative_mask (fun g _ _ => if g = 1 then JUMP_DET else 0) 0 0
  exact ⟨h.1 1 2 (by decide) (by decide), (h.2 2).mp (h.1 1 2 (by decide) (by decide))⟩

/-! ## Claim C7: RC-pixel saturation flagging -/

/-- C7: with `flag_rcsat` set, `do_saturation` hands the external saturation
step the cube with the `SATURATED` bit ORed into every group sample of every
pixel whose pixel DQ carries the `RC` bit; the flagging changes no other bit
of any sample, and samples of pixels without the `RC` bit are unchanged. -/
theorem C7_rc_saturation (satStep : Nat → RampCube → RampCube)
    (grow_diagonal : Bool) (npix : Nat) (cube : RampCube) (i g y x : Nat) :
    do_saturation satStep true grow_diagonal npix cube
      = do_saturation_main satStep true grow_diagonal npix (flagRcSat cube)
    ∧ ((flagRcSat cube).groupdq i g y x).testBit 1
        = ((cube.groupdq i g y x).testBit 1 || hasFlag (cube.pixeldq y x) RC)
    ∧ (∀ k, k ≠ 1 → ((flagRcSat cube).groupdq i g y x).testBit k
        = (cube.groupdq i g y x).testBit k)
    ∧ (hasFlag (cube.pixeldq y x) RC = false →
        (flagRcSat cube).groupdq i g y x = cube.groupdq i g y x) := by
  refine ⟨rfl, ?_, ?_, ?_⟩
  · show ((cube.groupdq i g y x) |||
      (if maskRc cube y x then SATURATED else 0)).testBit 1 = _
    unfold maskRc
    cases h : hasFlag (cube.pixeldq y x) RC <;>
      simp [Nat.testBit_or, testBit_SATURATED, Nat.zero_testBit]
  · intro k hk
    show ((cube.groupdq i g y x) |||
      (if maskRc cube y x then SATURATED else 0)).testBit k = _
    cases h : maskRc cube y x
    · simp [Nat.testBit_or, Nat.zero_testBit]
    · have h1 : (decide (1 = k)) = false := decide_eq_false (by omega)
      simp [Nat.testBit_or, testBit_SATURATED, h1]
  · intro h
    show (cube.groupdq i g y x) |||
      (if maskRc cube y x then SATURATED else 0) = _
    unfold maskRc
    rw [h]
    exact Nat.or_zero _

/-- Witness for C7: the RC pixel's sample gets the `SATURATED` bit, the
non-RC pixel's sample is untouched, and bit 0 of the RC pixel's sample is
not newly set. -/
theorem C7_witness :
    ((flagRcSat c7Cube).groupdq 0 0 0 0).testBit 1 = true ∧
    (flagRcSat c7Cube).groupdq 0 0 0 1 = c7Cube.groupdq 0 0 0 1 ∧
    ((flagRcSat c7Cube).groupdq 0 0 0 0).testBit 0 = false := by
  refine ⟨?_, (C7_rc_saturation (fun _ c => c) false 0 c7Cube 0 0 0 1).2.2.2 (by decide), ?_⟩
  · rw [(C7_rc_saturation (fun _ c => c) false 0 c7Cube 0 0 0 0).2.1]
    decide
  · rw [(C7_rc_saturation (fun _ c => c) false 0 c7Cube 0 0 0 0).2.2.1 0 (by decide)]
    decide

/-! ## Claim C6: reference-pixel skip decision -/

/-- C6: `do_refpix` dispatches on `do_refpix_path`, which consults only the
full-frame flag and `nlower + nupper` (never `nleft`/`nright`), and the
unmodified external path is taken iff the cube is full frame or
`nlower + nupper = 0`. -/
theorem C6_refpix_decision (refpixStep : Bool → RampCube → RampCube)
    (useSideOrig : Bool) (nlower nupper nleft nright nrow_off ncol_off : Nat)
    (cube : RampCube) :
    do_refpix refpixStep useSideOrig nlower nupper nleft nright nrow_off ncol_off cube
      = (match do_refpix_path cube.isFullFrame nlower nupper with
         | RefpixPath.normal => refpixStep useSideOrig cube
         | RefpixPath.pseudo => do_pseudo_refpix refpixStep useSideOrig
             nlower nupper nleft nright nrow_off ncol_off cube)
    ∧ (do_refpix_path cube.isFullFrame nlower nupper = RefpixPath.normal
        ↔ (cube.isFullFrame = true ∨ nlower + nupper = 0)) := by
  refine ⟨rfl, ?_⟩
  unfold do_refpix_path
  by_cases h : (cube.isFullFrame || (nlower + nupper == 0)) = true
  · rw [if_pos h]
    simp only [Bool.or_eq_true, beq_iff_eq] at h
    simpa using h
  · rw [if_neg h]
    simp only [Bool.or_eq_true, beq_iff_eq] at h
    push_neg at h
    constructor
    · intro hc
      exact RefpixPath.noConfusion hc
    · rintro (hc | hc)
      · exact absurd hc h.1
      · exact absurd hc h.2

/-- Witness for C6: a full-frame cube takes the normal path even with
nonzero `nleft`/`nright`, and a subarray cube with `nlower + nupper > 0`
does not, whatever `nleft`/`nright` are. -/
theorem C6_witness :
    do_refpix_path true 0 0 = RefpixPath.normal ∧
    do_refpix_path false 1 2 ≠ RefpixPath.normal := by
  constructor
  · exact (C6_refpix_decision (fun _ c => c) true 0 0 7 9 0 0 c6Cube).2.mpr
      (Or.inl rfl)
  · intro hc
    rcases (C6_refpix_decision (fun _ c => c) true 1 2 7 9 0 0 c6bCube).2.mp hc
      with h | h
    · exact absurd h (by decide)
    · exact absurd h (by decide)

/-! ## Claim C8: 1/f channel-count precondition and channel bands -/

theorem mem_fnoiseChannels (ny no : Nat) (p : Nat × Nat) :
    p ∈ fnoiseChannels ny no ↔
      ∃ ch, ch < no ∧ p = (ch * (ny / no), ch * (ny / no) + ny / no) := by
  unfold fnoiseChannels
  simp only [List.mem_map, List.mem_range]
  constructor
  · rintro ⟨ch, hch, rfl⟩
    exact ⟨ch, hch, rfl⟩
  · rintro ⟨ch, hch, rfl⟩
    exact ⟨ch, hch, rfl⟩

theorem fnoiseChannels_cover (ny no x : Nat) :
    (∃ p, p ∈ fnoiseChannels ny no ∧ p.1 ≤ x ∧ x < p.2)
      ↔ x < no * (ny / no) := by
  constructor
  · rintro ⟨p, hp, h1, h2⟩
    rw [mem_fnoiseChannels] at hp
    obtain ⟨ch, hch, rfl⟩ := hp
    have hle : ch + 1 ≤ no := hch
    have hmul : (ch + 1) * (ny / no) ≤ no * (ny / no) :=
      Nat.mul_le_mul_right _ hle
    have he : (ch + 1) * (ny / no) = ch * (ny / no) + ny / no := by ring
    simp only at h1 h2
    omega
  · intro hx
    rcases Nat.eq_zero_or_pos (ny / no) with h0 | h0
    · rw [h0, Nat.mul_zero] at hx
      exact absurd hx (Nat.not_lt_zero x)
    · refine ⟨(x / (ny / no) * (ny / no), x / (ny / no) * (ny / no) + ny / no),
        ?_, ?_, ?_⟩
      · rw [mem_fnoiseChannels]
        exact ⟨x / (ny / no), (Nat.div_lt_iff_lt_mul h0).mpr hx, rfl⟩
      · exact Nat.div_mul_le_self x _
      · have hdm := Nat.div_add_mod' x (ny / no)
        have hmod := Nat.mod_lt x h0
        simp only
        omega

/-- C8: `subtract_fnoise` aborts with the assertion error whenever a
full-frame cube has `noutputs ≠ 4` or a subarray cube has `noutputs ≠ 1`;
when the counts match it succeeds, leaving columns outside every channel
band untouched, and the channel bands are the `noutputs` contiguous bands of
width `ny / noutputs` starting at multiples of `ny / noutputs`, which
together cover exactly the columns below `noutputs * (ny / noutputs)`. -/
theorem C8_fnoise_precondition (cubeFit : CubeFitFn)
    (satThresh : Nat → Nat → Rat)
    (robustMean : (Nat → Nat → Nat → Rat) → (Nat → Nat → Rat))
    (fitModel : (Nat → Nat → Rat) → (Nat → Nat → Bool) → (Nat → Nat → Rat))
    (satFrac : Rat) (cube : RampCube) :
    (cube.isFullFrame = true → cube.noutputs ≠ 4 →
      subtract_fnoise cubeFit satThresh robustMean fitModel satFrac cube
        = Except.error "Full frame data must have 4 outputs")
    ∧ (cube.isFullFrame = false → cube.noutputs ≠ 1 →
      subtract_fnoise cubeFit satThresh robustMean fitModel satFrac cube
        = Except.error "Subarray data must have 1 output")
    ∧ ((cube.isFullFrame = true → cube.noutputs = 4) →
       (cube.isFullFrame = false → cube.noutputs = 1) →
       ∃ out, subtract_fnoise cubeFit satThresh robustMean fitModel satFrac cube
           = Except.ok out
         ∧ ∀ i j y x, (∀ p, p ∈ fnoiseChannels cube.ny cube.noutputs →
              ¬(p.1 ≤ x ∧ x < p.2)) →
             out.data i j y x = cube.data i j y x)
    ∧ (∀ x, (∃ p, p ∈ fnoiseChannels cube.ny cube.noutputs ∧ p.1 ≤ x ∧ x < p.2)
          ↔ x < cube.noutputs * (cube.ny / cube.noutputs))
    ∧ (fnoiseChannels cube.ny cube.noutputs).length = cube.noutputs
    ∧ (∀ ch, ch < cube.noutputs →
        (ch * (cube.ny / cube.noutputs),
         ch * (cube.ny / cube.noutputs) + cube.ny / cube.noutputs)
          ∈ fnoiseChannels cube.ny cube.noutputs) := by
  refine ⟨?_, ?_, ?_, fun x => fnoiseChannels_cover cube.ny cube.noutputs x,
    ?_, ?_⟩
  · intro hff hne
    unfold subtract_fnoise
    rw [if_pos]
    rw [hff]
    simp [hne]
  · intro hff hne
    unfold subtract_fnoise
    rw [if_neg, if_pos]
    · rw [hff]
      simp [hne]
    · rw [hff]
      simp
  · intro h4 h1
    unfold subtract_fnoise
    rw [if_neg, if_neg]
    · refine ⟨_, rfl, ?_⟩
      intro i j y x hx
      have hxc : ¬ x < cube.noutputs * (cube.ny / cube.noutputs) := by
        intro hlt
        obtain ⟨p, hp, hb⟩ :=
          (fnoiseChannels_cover cube.ny cube.noutputs x).mpr hlt
        exact hx p hp hb
      simp only
      rw [if_neg]
      intro hc
      exact hxc hc.2.2
    · cases hff : cube.isFullFrame
      · simp [h1 hff]
      · simp [h4 hff]
    · cases hff : cube.isFullFrame
      · simp [h1 hff]
      · simp [h4 hff]
  · unfold fnoiseChannels
    simp
  · intro ch hch
    rw [mem_fnoiseChannels]
    exact ⟨ch, hch, rfl⟩

/-- Witness for C8: a full-frame cube with 1 output aborts with the
assertion message, and the single band of a 1-output 4-row cube covers
exactly the columns below 4. -/
theorem C8_witness :
    subtract_fnoise c8Fit (fun _ _ => 0) (fun _ => fun _ _ => 0)
        (fun _ _ => fun _ _ => 0) (1/2 : Rat) c8BadCube
      = Except.error "Full frame data must have 4 outputs" ∧
    (∃ p, p ∈ fnoiseChannels 4 1 ∧ p.1 ≤ 3 ∧ 3 < p.2) := by
  constructor
  · exact (C8_fnoise_precondition c8Fit (fun _ _ => 0) (fun _ => fun _ _ => 0)
      (fun _ _ => fun _ _ => 0) (1/2 : Rat) c8BadCube).1 rfl (by decide)
  · exact (C8_fnoise_precondition c8Fit (fun _ _ => 0) (fun _ => fun _ _ => 0)
      (fun _ _ => fun _ _ => 0) (1/2 : Rat) c8BadCube).2.2.2.1 3 |>.mpr (by decide)

/-! ## Claim C9: kTC removal -/

/-- C9: `subtract_ktc` subtracts integration `i`'s fitted bias map from the
data of every group of integration `i` (for each `i < nints`) and writes no
other field of the cube. -/
theorem C9_subtract_ktc (cubeFit : CubeFitFn) (satThresh : Nat → Nat → Rat)
    (satFrac : Rat) (cube : RampCube) (i g y x : Nat) (hi : i < cube.nints) :
    (subtract_ktc cubeFit satThresh satFrac cube).data i g y x
      = cube.data i g y x - (fit_slopes cubeFit satThresh satFrac cube).1 i y x
    ∧ (subtract_ktc cubeFit satThresh satFrac cube).groupdq = cube.groupdq
    ∧ (subtract_ktc cubeFit satThresh satFrac cube).pixeldq = cube.pixeldq
    ∧ (subtract_ktc cubeFit satThresh satFrac cube).zeroframe = cube.zeroframe
    ∧ (subtract_ktc cubeFit satThresh satFrac cube).nints = cube.nints
    ∧ (subtract_ktc cubeFit satThresh satFrac cube).ngroups = cube.ngroups
    ∧ (subtract_ktc cubeFit satThresh satFrac cube).ny = cube.ny
    ∧ (subtract_ktc cubeFit satThresh satFrac cube).nx = cube.nx
    ∧ (subtract_ktc cubeFit satThresh satFrac cube).isFullFrame = cube.isFullFrame
    ∧ (subtract_ktc cubeFit satThresh satFrac cube).noutputs = cube.noutputs
    ∧ (subtract_ktc cubeFit satThresh satFrac cube).groupTime = cube.groupTime := by
  refine ⟨?_, rfl, rfl, rfl, rfl, rfl, rfl, rfl, rfl, rfl, rfl⟩
  unfold subtract_ktc
  simp only
  rw [if_pos hi]

/-- Witness for C9: with a fitter returning bias 3, datum 5 becomes 2 in
every group of the integration, and the group DQ is untouched. -/
theorem C9_witness :
    (subtract_ktc c9Fit (fun _ _ => 0) (1/2 : Rat) c9Cube).data 0 1 0 0 = 2 ∧
    (subtract_ktc c9Fit (fun _ _ => 0) (1/2 : Rat) c9Cube).groupdq
      = c9Cube.groupdq := by
  have h := C9_subtract_ktc c9Fit (fun _ _ => 0) (1/2 : Rat) c9Cube 0 1 0 0
    (by decide)
  refine ⟨?_, h.2.1⟩
  rw [h.1]
  norm_num [c9Cube, c9Fit, fit_slopes]

/-! ## Claim C10: implicit coupling of kTC and 1/f removal -/

/-- C10: in the non-MIRI branch of `process`, `remove_fnoise = true` forces
the kTC bias subtraction to run regardless of `remove_ktc`: the pipeline
tail equals `subtract_fnoise` applied to the `subtract_ktc` output for
either value of `remove_ktc`. -/
theorem C10_ktc_fnoise_coupling (remove_ktc : Bool) (cubeFit : CubeFitFn)
    (satThresh : Nat → Nat → Rat)
    (robustMean : (Nat → Nat → Nat → Rat) → (Nat → Nat → Rat))
    (fitModel : (Nat → Nat → Rat) → (Nat → Nat → Bool) → (Nat → Nat → Rat))
    (cube : RampCube) :
    processNirNoise remove_ktc true cubeFit satThresh robustMean fitModel cube
      = subtract_fnoise cubeFit satThresh robustMean fitModel (1/2 : Rat)
          (subtract_ktc cubeFit satThresh (1/2 : Rat) cube) := by
  unfold processNirNoise
  simp

/-! ## Claim C1: pseudo-reference-pixel restore -/

/-- C1 counterexample: the claim asserts that a bit other than
`REFERENCE_PIXEL` set by the external correction inside a flooded region is
not altered by the restore.  With `nlower = 1` on a 2x1 cube and a
correction that ORs `DO_NOT_USE` into every pixel DQ, pixel `(0,0)` lies in
the flooded region, the correction's output carries `DO_NOT_USE` there, yet
after the restore the bit is gone — the whole pre-flood value `0` is back. -/
theorem C1_counterexample :
    floodedRegion c1Cube.ny c1Cube.nx 1 0 0 0 0 0 0 0 = true ∧
    hasFlag ((c1Step (pseudoUseSide 0 0 true)
        (pseudoFlagged 1 0 0 0 0 0 c1Cube)).pixeldq 0 0) DO_NOT_USE = true ∧
    hasFlag ((do_pseudo_refpix c1Step true 1 0 0 0 0 0 c1Cube).pixeldq 0 0)
        DO_NOT_USE = false ∧
    (do_pseudo_refpix c1Step true 1 0 0 0 0 0 c1Cube).pixeldq 0 0
      = c1Cube.pixeldq 0 0 := by
  decide

set_option maxHeartbeats 800000 in
/-- The restore block writes the saved values into exactly the union of the
flooded regions and leaves everything else at the step result's values. -/
theorem pseudoRestore_pixeldq (orig : Nat → Nat → Nat)
    (nlower nupper nleft nright nrow_off ncol_off : Nat)
    (res : RampCube) (y x : Nat) :
    (pseudoRestore orig nlower nupper nleft nright nrow_off ncol_off res).pixeldq y x
      = if floodedRegion res.ny res.nx nlower nupper nleft nright nrow_off ncol_off y x
        then orig y x else res.pixeldq y x := by
  unfold pseudoRestore
  simp only [ite_apply]
  cases hf : floodedRegion res.ny res.nx nlower nupper nleft nright nrow_off
      ncol_off y x
  · simp only [hf, Bool.false_eq_true, if_false]
    simp only [floodedRegion, Bool.or_eq_false_iff, Bool.and_eq_false_iff,
      decide_eq_false_iff_not] at hf
    split_ifs <;> first | rfl | (exfalso; omega)
  · simp only [hf, if_true]
    simp only [floodedRegion, Bool.or_eq_true, Bool.and_eq_true,
      decide_eq_true_eq] at hf
    split_ifs <;> first | rfl | (exfalso; omega)

/-- C1 amended: after the `FLAGGED → CORRECTED → RESTORED` sequence of
`do_pseudo_refpix`, every pixel inside the flooded border regions holds
exactly its pre-flood pixel-DQ value in all bits (any bit the external
correction set there, `REFERENCE_PIXEL` or not, is discarded by the
restore), and every pixel outside the flooded regions holds the external
correction's output value, unaltered by the restore.  The hypotheses state
that the external step preserves the array geometry. -/
theorem C1_pseudo_refpix_restore (refpixStep : Bool → RampCube → RampCube)
    (useSideOrig : Bool)
    (nlower nupper nleft nright nrow_off ncol_off : Nat)
    (cube : RampCube) (y x : Nat)
    (hny : (refpixStep (pseudoUseSide nleft nright useSideOrig)
        (pseudoFlagged nlower nupper nleft nright nrow_off ncol_off cube)).ny
      = cube.ny)
    (hnx : (refpixStep (pseudoUseSide nleft nright useSideOrig)
        (pseudoFlagged nlower nupper nleft nright nrow_off ncol_off cube)).nx
      = cube.nx) :
    (floodedRegion cube.ny cube.nx nlower nupper nleft nright nrow_off ncol_off
        y x = true →
      (do_pseudo_refpix refpixStep useSideOrig nlower nupper nleft nright
          nrow_off ncol_off cube).pixeldq y x = cube.pixeldq y x)
    ∧ (floodedRegion cube.ny cube.nx nlower nupper nleft nright nrow_off ncol_off
        y x = false →
      (do_pseudo_refpix refpixStep useSideOrig nlower nupper nleft nright
          nrow_off ncol_off cube).pixeldq y x
        = (refpixStep (pseudoUseSide nleft nright useSideOrig)
            (pseudoFlagged nlower nupper nleft nright nrow_off ncol_off cube)).pixeldq
            y x) := by
  have hmain := pseudoRestore_pixeldq cube.pixeldq nlower nupper nleft nright
    nrow_off ncol_off
    (refpixStep (pseudoUseSide nleft nright useSideOrig)
      (pseudoFlagged nlower nupper nleft nright nrow_off ncol_off cube)) y x
  rw [hny, hnx] at hmain
  constructor
  · intro h
    show (pseudoRestore cube.pixeldq nlower nupper nleft nright nrow_off ncol_off
        (refpixStep (pseudoUseSide nleft nright useSideOrig)
          (pseudoFlagged nlower nupper nleft nright nrow_off ncol_off cube))).pixeldq
        y x = cube.pixeldq y x
    rw [hmain, if_pos h]
  · intro h
    show (pseudoRestore cube.pixeldq nlower nupper nleft nright nrow_off ncol_off
        (refpixStep (pseudoUseSide nleft nright useSideOrig)
          (pseudoFlagged nlower nupper nleft nright nrow_off ncol_off cube))).pixeldq
        y x = _
    rw [hmain, if_neg]
    rw [h]
    exact Bool.false_ne_true

/-- Witness for the amended C1 at a concrete cube and correction: the
flooded pixel `(0,0)` returns to its pre-flood value and the unflooded pixel
`(1,0)` keeps the correction's output. -/
theorem C1_witness :
    (do_pseudo_refpix c1Step true 1 0 0 0 0 0 c1Cube).pixeldq 0 0
      = c1Cube.pixeldq 0 0 ∧
    (do_pseudo_refpix c1Step true 1 0 0 0 0 0 c1Cube).pixeldq 1 0
      = (c1Step (pseudoUseSide 0 0 true)
          (pseudoFlagged 1 0 0 0 0 0 c1Cube)).pixeldq 1 0 :=
  ⟨(C1_pseudo_refpix_restore c1Step true 1 0 0 0 0 0 c1Cube 0 0 rfl rfl).1
      (by decide),
   (C1_pseudo_refpix_restore c1Step true 1 0 0 0 0 0 c1Cube 1 0 rfl rfl).2
      (by decide)⟩

/-! ## Claim C2: null-refit fallback in `process` -/

/-- C2 counterexample: the claim asserts that when outlier flagging has been
applied and the re-run ramp fit returns a null product, the original
`(rate, rateints)` pair is used.  With a ramp-fit step that returns
`(some 10, some 20)` on the original ramp and the null product on the
outlier-flagged ramp, the tail of `process` returns the null product, not
the original fit. -/
theorem C2_counterexample :
    processRampFitTail false true c2RampFit (fun _ _ => some 1) 0
      = ((none : Option Nat), (none : Option Nat)) ∧
    (processRampFitTail false true c2RampFit (fun _ _ => some 1) 0).1
      ≠ some 10 := by
  decide

/-- C2 amended: in the ramp-fit tail of `process` (with ramp fitting not
skipped, `rate_int_outliers` on, and a first fit returning a non-null
`rateints`), the fallback to the original `(rate, rateints)` products
occurs exactly when `apply_rateint_outliers` returns a null ramp; when it
returns a flagged ramp, the output is whatever the re-run ramp fit returns —
a null refit product propagates as a null output instead of restoring the
original fit. -/
theorem C2_null_refit_fallback {M : Type} (rampFitStep : M → Option M × Option M)
    (applyOutliers : M → M → Option M) (input0 : M)
    (r : Option M) (ri : M)
    (hfit : rampFitStep input0 = (r, some ri)) :
    (applyOutliers ri input0 = none →
      processRampFitTail false true rampFitStep applyOutliers input0
        = (r, some ri))
    ∧ (∀ ramp1, applyOutliers ri input0 = some ramp1 →
      processRampFitTail false true rampFitStep applyOutliers input0
        = rampFitStep ramp1) := by
  constructor
  · intro hout
    simp [processRampFitTail, hfit, hout]
  · intro ramp1 hout
    simp [processRampFitTail, hfit, hout]

/-- Witness for the amended C2 over `M = Nat`: with an outlier step
returning a null ramp, the original fit is the output; with one returning a
flagged ramp, the refit's null product is the output. -/
theorem C2_witness :
    processRampFitTail false true c2RampFit (fun _ _ => none) 0
      = ((some 10 : Option Nat), (some 20 : Option Nat)) ∧
    processRampFitTail false true c2RampFit (fun _ _ => some 1) 0
      = ((none : Option Nat), (none : Option Nat)) :=
  ⟨(C2_null_refit_fallback c2RampFit (fun _ _ => none) 0 (some 10) 20 rfl).1 rfl,
   (C2_null_refit_fallback c2RampFit (fun _ _ => some 1) 0 (some 10) 20 rfl).2
      1 rfl⟩

/-! ## Claim C3: non-diagonal saturation growth -/

/-- 4-connected growth by `r` reaches exactly the in-bounds seeds within
Manhattan distance `r`. -/
theorem expand_mask_manhattan (m : Nat → Nat → Bool) (ny nx : Nat) (r : Nat) :
    ∀ y x, y < ny → x < nx →
      (expand_mask m r false ny nx y x = true ↔
        ∃ yy, yy < ny ∧ ∃ xx, xx < nx ∧ m yy xx = true
          ∧ absDiff y yy + absDiff x xx ≤ r) := by
  induction r with
  | zero =>
    intro y x hy hx
    constructor
    · intro h
      exact ⟨y, hy, x, hx, h, by unfold absDiff; omega⟩
    · rintro ⟨yy, hyy, xx, hxx, hm, hd⟩
      have h1 : yy = y := by unfold absDiff at hd; omega
      have h2 : xx = x := by unfold absDiff at hd; omega
      show m y x = true
      rw [← h1, ← h2]
      exact hm
  | succ r ih =>
    intro y x hy hx
    show dilateStep false ny nx (expand_mask m r false ny nx) y x = true ↔ _
    unfold dilateStep inBounds
    simp only [Bool.false_and, Bool.or_false, Bool.and_eq_true, Bool.or_eq_true,
      decide_eq_true_eq]
    constructor
    · rintro ⟨-, ((((hc | ⟨h0, hc⟩) | ⟨h0, hc⟩) | ⟨h0, hc⟩) | ⟨h0, hc⟩)⟩
      · obtain ⟨yy, hyy, xx, hxx, hm, hd⟩ := (ih y x hy hx).mp hc
        exact ⟨yy, hyy, xx, hxx, hm, by unfold absDiff at hd ⊢; omega⟩
      · obtain ⟨yy, hyy, xx, hxx, hm, hd⟩ := (ih (y - 1) x (by omega) hx).mp hc
        exact ⟨yy, hyy, xx, hxx, hm, by unfold absDiff at hd ⊢; omega⟩
      · obtain ⟨yy, hyy, xx, hxx, hm, hd⟩ := (ih (y + 1) x (by omega) hx).mp hc
        exact ⟨yy, hyy, xx, hxx, hm, by unfold absDiff at hd ⊢; omega⟩
      · obtain ⟨yy, hyy, xx, hxx, hm, hd⟩ := (ih y (x - 1) hy (by omega)).mp hc
        exact ⟨yy, hyy, xx, hxx, hm, by unfold absDiff at hd ⊢; omega⟩
      · obtain ⟨yy, hyy, xx, hxx, hm, hd⟩ := (ih y (x + 1) hy (by omega)).mp hc
        exact ⟨yy, hyy, xx, hxx, hm, by unfold absDiff at hd ⊢; omega⟩
    · rintro ⟨yy, hyy, xx, hxx, hm, hd⟩
      refine ⟨⟨hy, hx⟩, ?_⟩
      by_cases hle : absDiff y yy + absDiff x xx ≤ r
      · exact Or.inl (Or.inl (Or.inl (Or.inl
          ((ih y x hy hx).mpr ⟨yy, hyy, xx, hxx, hm, hle⟩))))
      · rcases Nat.lt_trichotomy yy y with hc | hc | hc
        · have h0 : 0 < y := by omega
          have hE : expand_mask m r false ny nx (y - 1) x = true :=
            (ih (y - 1) x (by omega) hx).mpr
              ⟨yy, hyy, xx, hxx, hm, by unfold absDiff at hd hle ⊢; omega⟩
          exact Or.inl (Or.inl (Or.inl (Or.inr ⟨h0, hE⟩)))
        · rcases Nat.lt_trichotomy xx x with hcx | hcx | hcx
          · have h0 : 0 < x := by omega
            have hE : expand_mask m r false ny nx y (x - 1) = true :=
              (ih y (x - 1) hy (by omega)).mpr
                ⟨yy, hyy, xx, hxx, hm, by unfold absDiff at hd hle ⊢; omega⟩
            exact Or.inl (Or.inr ⟨h0, hE⟩)
          · exfalso
            unfold absDiff at hle
            omega
          · have h0 : x + 1 < nx := by omega
            have hE : expand_mask m r false ny nx y (x + 1) = true :=
              (ih y (x + 1) hy (by omega)).mpr
                ⟨yy, hyy, xx, hxx, hm, by unfold absDiff at hd hle ⊢; omega⟩
            exact Or.inr ⟨h0, hE⟩
        · have h0 : y + 1 < ny := by omega
          have hE : expand_mask m r false ny nx (y + 1) x = true :=
            (ih (y + 1) x (by omega) hx).mpr
              ⟨yy, hyy, xx, hxx, hm, by unfold absDiff at hd hle ⊢; omega⟩
          exact Or.inl (Or.inl (Or.inr ⟨h0, hE⟩))

theorem growSatZeroframe_groupdq (flag_rcsat : Bool) (npix : Nat)
    (input res1 : RampCube) :
    (growSatZeroframe flag_rcsat npix input res1).groupdq = res1.groupdq := by
  unfold growSatZeroframe
  cases hz : res1.zeroframe
  · rfl
  · rfl

theorem growSatZeroframe_some (flag_rcsat : Bool) (npix : Nat)
    (input res1 : RampCube) (zf : Nat → Nat → Nat → Rat)
    (hz : res1.zeroframe = some zf) :
    (growSatZeroframe flag_rcsat npix input res1).zeroframe
      = some (fun i y x =>
          if expand_mask (fun py px =>
              if flag_rcsat then (decide (zf i py px = 0) || maskRc input py px)
              else decide (zf i py px = 0)) npix false res1.ny res1.nx y x
          then 0 else zf i y x) := by
  unfold growSatZeroframe
  rw [hz]

theorem growSatZeroframe_none (flag_rcsat : Bool) (npix : Nat)
    (input res1 : RampCube) (hz : res1.zeroframe = none) :
    (growSatZeroframe flag_rcsat npix input res1).zeroframe = none := by
  unfold growSatZeroframe
  rw [hz]
  exact hz

/-- C3: with `grow_diagonal = true` or `n_pix_grow_sat = 0`, `do_saturation`
is just the external routine at the requested growth; otherwise (here
`grow_diagonal = false`, `0 < npix`) it runs the external routine with zero
growth, ORs into its group DQ the `SATURATED` flag grown 4-connectedly by
`npix` (growth reaches exactly the Manhattan ball, third conjunct), and,
when a zero frame is present, zeroes the grown zero-frame saturation mask
(zero value exactly zero, ORed with the RC mask when `flag_rcsat`); with no
zero frame the zero frame stays absent. -/
theorem C3_saturation_growth (satStep : Nat → RampCube → RampCube)
    (flag_rcsat : Bool) (npix : Nat) (cube : RampCube) (i g y x : Nat)
    (hnp : 0 < npix) :
    (∀ gd np, (gd = true ∨ np = 0) →
      do_saturation satStep flag_rcsat gd np cube
        = satStep np (if flag_rcsat then flagRcSat cube else cube))
    ∧ (do_saturation satStep flag_rcsat false npix cube).groupdq i g y x
        = (satStep 0 (if flag_rcsat then flagRcSat cube else cube)).groupdq i g y x
          ||| (if expand_mask
                (fun yy xx => hasFlag
                  ((if flag_rcsat then flagRcSat cube else cube).groupdq i g yy xx)
                  SATURATED)
                npix false
                (if flag_rcsat then flagRcSat cube else cube).ny
                (if flag_rcsat then flagRcSat cube else cube).nx y x
              then SATURATED else 0)
    ∧ (∀ (mk : Nat → Nat → Bool) (ny nx py px : Nat), py < ny → px < nx →
        (expand_mask mk npix false ny nx py px = true ↔
          ∃ yy, yy < ny ∧ ∃ xx, xx < nx ∧ mk yy xx = true
            ∧ absDiff py yy + absDiff px xx ≤ npix))
    ∧ (∀ zf, (satStep 0 (if flag_rcsat then flagRcSat cube else cube)).zeroframe
          = some zf →
        (do_saturation satStep flag_rcsat false npix cube).zeroframe
          = some (fun ii yy xx =>
              if expand_mask (fun py px =>
                  if flag_rcsat
                  then (decide (zf ii py px = 0)
                    || maskRc (if flag_rcsat then flagRcSat cube else cube) py px)
                  else decide (zf ii py px = 0)) npix false
                  (satStep 0 (if flag_rcsat then flagRcSat cube else cube)).ny
                  (satStep 0 (if flag_rcsat then flagRcSat cube else cube)).nx
                  yy xx
              then 0 else zf ii yy xx))
    ∧ ((satStep 0 (if flag_rcsat then flagRcSat cube else cube)).zeroframe = none →
        (do_saturation satStep flag_rcsat false npix cube).zeroframe = none) := by
  have hmain : do_saturation satStep flag_rcsat false npix cube
      = growSatZeroframe flag_rcsat npix
          (if flag_rcsat then flagRcSat cube else cube)
          (growSatGroupdq npix (if flag_rcsat then flagRcSat cube else cube)
            (satStep 0 (if flag_rcsat then flagRcSat cube else cube))) := by
    unfold do_saturation do_saturation_main
    rw [if_neg]
    simp only [Bool.false_or, Bool.or_eq_true, beq_iff_eq]
    omega
  refine ⟨?_, ?_, ?_, ?_, ?_⟩
  · intro gd np h
    rcases h with h | h
    · subst h
      unfold do_saturation do_saturation_main
      rw [if_pos]
      simp
    · subst h
      unfold do_saturation do_saturation_main
      rw [if_pos]
      simp
  · rw [hmain, growSatZeroframe_groupdq]
    rfl
  · exact fun mk ny nx py px h1 h2 => expand_mask_manhattan mk ny nx npix py px h1 h2
  · intro zf hz
    rw [hmain]
    exact growSatZeroframe_some flag_rcsat npix
      (if flag_rcsat then flagRcSat cube else cube)
      (growSatGroupdq npix (if flag_rcsat then flagRcSat cube else cube)
        (satStep 0 (if flag_rcsat then flagRcSat cube else cube))) zf hz
  · intro hz
    rw [hmain]
    exact growSatZeroframe_none flag_rcsat npix
      (if flag_rcsat then flagRcSat cube else cube)
      (growSatGroupdq npix (if flag_rcsat then flagRcSat cube else cube)
        (satStep 0 (if flag_rcsat then flagRcSat cube else cube))) hz

/-- Witness for C3 at a concrete 2x3 cube with a single saturated sample at
`(0,0)`, an identity external step and radius 1: the 4-neighbour `(0,1)`
gains the `SATURATED` flag while the diagonal corner `(1,1)` does not. -/
theorem C3_witness :
    (do_saturation (fun _ c => c) false false 1 c3Cube).groupdq 0 0 0 1
      = SATURATED ∧
    (do_saturation (fun _ c => c) false false 1 c3Cube).groupdq 0 0 1 1 = 0 := by
  constructor
  · rw [(C3_saturation_growth (fun _ c => c) false 1 c3Cube 0 0 0 1 (by decide)).2.1]
    decide
  · rw [(C3_saturation_growth (fun _ c => c) false 1 c3Cube 0 0 1 1 (by decide)).2.1]
    decide

end SpaceKLIP
